import Mathlib

/-!
Verification development for the Group_06 movie-metadata dashboard
(`moviedata_final.py` / `moviedata.py`).

The Python pipeline is shallowly embedded: pandas tables become `List`s of
row structures, string cells become `Option String` (with `none` for
`NaN`), float64 height cells become `Option ℚ`, and each cleaning / query
method of `MovieData` becomes a Lean function translated from its source.
Python exceptions become `Except String`.
-/

namespace MovieRepo

/-! ## ASCII fragment of the Python `str` primitives

The dataset and the parameters in the claims are ASCII, so `str.lower` and
`str.strip` are modelled on the ASCII fragment. -/

/-- `str.lower` on one character (ASCII fragment): `A`-`Z` shift by 32. -/
def pyLowerChar (c : Char) : Char :=
  if 65 ≤ c.toNat ∧ c.toNat ≤ 90 then Char.ofNat (c.toNat + 32) else c

/-- `str.lower` (ASCII fragment). -/
def pyLower (s : String) : String :=
  ⟨s.toList.map pyLowerChar⟩

/-- `str.isspace` characters stripped by Python `str.strip()` (ASCII). -/
def pyIsSpace (c : Char) : Bool :=
  c = ' ' ∨ c = '\t' ∨ c = '\n' ∨ c = '\r' ∨ c = '\x0b' ∨ c = '\x0c'

/-- `str.strip()`: drop whitespace from both ends. -/
def pyStrip (s : String) : String :=
  ⟨((s.toList.dropWhile pyIsSpace).reverse.dropWhile pyIsSpace).reverse⟩

theorem char_toNat_ofNat (n : Nat) (h : n < 55296) : (Char.ofNat n).toNat = n := by
  have hv : n.isValidChar := Or.inl h
  simp [Char.ofNat, hv, Char.ofNatAux, Char.toNat, UInt32.toNat]

theorem pyLowerChar_idem (c : Char) : pyLowerChar (pyLowerChar c) = pyLowerChar c := by
  unfold pyLowerChar
  by_cases h : 65 ≤ c.toNat ∧ c.toNat ≤ 90
  · rw [if_pos h]
    have h32 : c.toNat + 32 < 55296 := by omega
    rw [if_neg]
    rw [char_toNat_ofNat (c.toNat + 32) h32]
    omega
  · rw [if_neg h, if_neg h]

theorem pyLower_idem (s : String) : pyLower (pyLower s) = pyLower s := by
  unfold pyLower
  congr 1
  show List.map pyLowerChar (List.map pyLowerChar s.toList) = List.map pyLowerChar s.toList
  rw [List.map_map]
  exact List.map_congr_left fun c _ => pyLowerChar_idem c

/-! ## Data model

One structure per row of the two tab-separated tables, with the column
lists fixed in `_load_movie_data` / `_load_character_data`
(`moviedata_final.py` lines 68-71 and 104-109).  A string cell is
`Option String` (`none` = `NaN`); the float64 columns are `Option ℚ`
(`none` = `NaN`, exact rationals standing for the float values). -/

structure MovieRow where
  wikipediaMovieId : Int
  freebaseMovieId : Option String
  movieName : Option String
  movieReleaseDate : Option String
  movieBoxOfficeRevenue : Option ℚ
  movieRuntime : Option ℚ
  movieLanguages : Option String
  movieCountries : Option String
  movieGenres : Option String
deriving DecidableEq, Repr

structure CharacterRow where
  wikipediaMovieId : Int
  freebaseMovieId : Option String
  movieReleaseDate : Option String
  characterName : Option String
  actorDateOfBirth : Option String
  actorGender : Option String
  actorHeight : Option ℚ
  actorEthnicity : Option String
  actorName : Option String
  actorAgeAtMovieRelease : Option ℚ
  freebaseCharacterActorMapId : Option String
  freebaseCharacterId : Option String
  freebaseActorId : Option String
deriving DecidableEq, Repr

/-! ## `ast.literal_eval` on the category-map cells

The raw genre/country/language cells are Python dict literals
`\x7b'code': 'name', ...\x7d`.  `literalEvalDict` parses exactly that
fragment of `ast.literal_eval` (single- or double-quoted strings, no
escapes — the dataset's cells contain none) and fails on anything that is
not a dict literal, as `literal_eval` then either raises or produces a
non-dict on which `.values()` raises. -/

def lbraceChar : Char := '\x7b'
def rbraceChar : Char := '\x7d'
def squoteChar : Char := '\x27'

def skipSpaces (cs : List Char) : List Char := cs.dropWhile (fun c => c = ' ')

/-- Parse a leading quoted string; returns its contents and the rest. -/
def parseQuoted : List Char → Option (String × List Char)
  | [] => none
  | c :: cs =>
    if c = squoteChar ∨ c = '"' then
      let content := cs.takeWhile (fun d => d ≠ c)
      let rest := cs.dropWhile (fun d => d ≠ c)
      match rest with
      | [] => none
      | _ :: rest => some (⟨content⟩, rest)
    else none

/-- Python dict semantics for a repeated key: the value is replaced in
place, the first occurrence keeps its position. -/
def dictInsert (d : List (String × String)) (k v : String) : List (String × String) :=
  if d.any (fun p => p.1 = k) then d.map (fun p => if p.1 = k then (k, v) else p)
  else d ++ [(k, v)]

/-- Entries of a dict literal, positioned just after `\x7b` or a `,`. -/
def parseEntries : Nat → List Char → List (String × String) →
    Option (List (String × String))
  | 0, _, _ => none
  | fuel + 1, cs, acc =>
    match parseQuoted (skipSpaces cs) with
    | none => none
    | some (k, cs) =>
      match skipSpaces cs with
      | ':' :: cs =>
        match parseQuoted (skipSpaces cs) with
        | none => none
        | some (v, cs) =>
          match skipSpaces cs with
          | ',' :: cs => parseEntries fuel cs (dictInsert acc k v)
          | c :: cs =>
            if c = rbraceChar ∧ skipSpaces cs = [] then some (dictInsert acc k v)
            else none
          | [] => none
      | _ => none

def literalEvalDict (s : String) : Option (List (String × String)) :=
  match skipSpaces s.toList with
  | [] => none
  | c :: cs =>
    if c = lbraceChar then
      match skipSpaces cs with
      | c2 :: cs2 =>
        if c2 = rbraceChar ∧ skipSpaces cs2 = [] then some []
        else parseEntries (cs.length + 1) cs []
      | [] => none
    else none

/-! ## Cleaning (`_clean_data`, `moviedata_final.py` lines 117-147) -/

/-- The per-cell body of `clean_column_values.safe_eval`: a string cell is
replaced by the comma-joined `.values()` of its parsed dict, by `''` when
parsing (or `.values()`) raises; a non-string cell falls through the
`if isinstance(x, str)` with no `return`, i.e. becomes `None`. -/
def safe_eval (x : Option String) : Option String :=
  match x with
  | none => none
  | some s =>
    match literalEvalDict s with
    | some d => some (String.intercalate ", " (d.map Prod.snd))
    | none => some ""

/-- `clean_column_values` applied to the three category columns
(lines 130-132). -/
def clean_movie_row (r : MovieRow) : MovieRow :=
  { r with
    movieGenres := safe_eval r.movieGenres
    movieCountries := safe_eval r.movieCountries
    movieLanguages := safe_eval r.movieLanguages }

def clean_movie_table (t : List MovieRow) : List MovieRow :=
  t.map clean_movie_row

/-- `pd.to_numeric(..., errors='coerce')` on the height column: in the
model the column is already numeric with `none` for every cell that could
not be resolved to a number, so the coercion is the identity. -/
def pd_to_numeric (h : Option ℚ) : Option ℚ := h

/-- Line 136: `.loc[df["Actor_height"] < 10] *= 100` — a `NaN` comparison
is `False`, so `none` cells are untouched. -/
def clean_height (h : Option ℚ) : Option ℚ :=
  (pd_to_numeric h).map (fun x => if x < 10 then x * 100 else x)

/-- The dict in `.map(\x7b"m": "male", "f": "female"\x7d)`. -/
def gender_map (s : String) : Option String :=
  if s = "m" then some "male" else if s = "f" then some "female" else none

/-- Lines 140-146: `.fillna("unknown").str.lower().str.strip().map(...)`
then `.fillna(self.character_df['Actor_Gender'])` — the final `fillna`
pulls from the ORIGINAL column, so a cell whose lowered, stripped form is
neither `"m"` nor `"f"` is restored to its original value (`none`
included). -/
def clean_gender (g : Option String) : Option String :=
  match gender_map (pyStrip (pyLower (g.getD "unknown"))) with
  | some v => some v
  | none => g

def clean_character_row (r : CharacterRow) : CharacterRow :=
  { r with
    actorHeight := clean_height r.actorHeight
    actorGender := clean_gender r.actorGender }

/-- Lines 135-147 of `_clean_data`: height coercion and rescale, gender
normalization, then `dropna(subset=['Actor_height'], inplace=True)`. -/
def clean_character_table (t : List CharacterRow) : List CharacterRow :=
  (t.map clean_character_row).filter (fun r => r.actorHeight.isSome)

def clean_data (m : List MovieRow) (c : List CharacterRow) :
    List MovieRow × List CharacterRow :=
  (clean_movie_table m, clean_character_table c)

/-- The spec's gender normalization, as §4.4 words it: lowercase and trim;
map m to male and f to female; already-expanded values pass through;
anything else, missing included, becomes "unknown". -/
def spec_gender_normalize (g : Option String) : Option String :=
  match g with
  | none => some "unknown"
  | some s =>
    let t := pyStrip (pyLower s)
    if t = "m" then some "male"
    else if t = "f" then some "female"
    else if t = "male" ∨ t = "female" then some t
    else some "unknown"

/-- The amended gender normalization: only (trimmed, lowered) "m"/"f" are
mapped; every other cell — unrecognized codes and missing values
included — is returned exactly as stored. -/
def amended_gender_normalize (g : Option String) : Option String :=
  match g with
  | none => none
  | some s =>
    let t := pyStrip (pyLower s)
    if t = "m" then some "male"
    else if t = "f" then some "female"
    else some s

/-! ## Query layer (`moviedata_final.py`) -/

/-- A dynamically typed Python argument, as far as `movie_type`'s
`isinstance(N, int)` check can see it. -/
inductive PyVal where
  | int (n : Int)
  | nonInt
deriving DecidableEq, Repr

/-- `DataFrame.head(n)`: first `n` rows for `n ≥ 0`, all but the last
`|n|` rows for negative `n`. -/
def pd_head (n : Int) (l : List α) : List α :=
  if 0 ≤ n then l.take n.toNat else l.take (l.length - (-n).toNat)

def listStartsWith : List Char → List Char → Bool
  | [], _ => true
  | _ :: _, [] => false
  | a :: as, b :: bs => a = b && listStartsWith as bs

/-- `str.split(sep)` for a non-empty separator; `fuel` bounds the
recursion by the input length. -/
def pySplitAux (sep : List Char) : Nat → List Char → List Char → List (List Char)
  | 0, cs, acc => [acc.reverse ++ cs]
  | fuel + 1, cs, acc =>
    if sep ≠ [] ∧ listStartsWith sep cs then
      acc.reverse :: pySplitAux sep fuel (cs.drop sep.length) []
    else
      match cs with
      | [] => [acc.reverse]
      | c :: cs' => pySplitAux sep fuel cs' (c :: acc)

def pySplit (sep s : String) : List String :=
  (pySplitAux sep.toList (s.toList.length + 1) s.toList []).map
    (fun g => (⟨g⟩ : String))

/-- Stable insertion into a `le`-sorted list. -/
def insertSorted {α : Type} (le : α → α → Bool) (a : α) : List α → List α
  | [] => [a]
  | b :: bs => if le b a then b :: insertSorted le a bs else a :: b :: bs

/-- Insertion sort (pandas sorts group keys ascending; no claim depends
on the order, only on the contents). -/
def sortBy {α : Type} (le : α → α → Bool) (l : List α) : List α :=
  l.foldl (fun acc a => insertSorted le a acc) []

/-- `Series.value_counts()`: occurrence counts of the distinct values,
sorted by descending count. -/
def value_counts (l : List String) : List (String × Nat) :=
  sortBy (fun a b => decide (b.2 ≤ a.2)) (l.dedup.map (fun v => (v, l.count v)))

/-- `movie_type` (`moviedata_final.py` lines 149-167): rejects a non-`int`
`N`, then splits the genre column on `', '`, explodes, strips, counts and
takes the head. -/
def movie_type (movies : List MovieRow) (N : PyVal) :
    Except String (List (String × Nat)) :=
  match N with
  | .nonInt => .error "N must be an integer."
  | .int n =>
    let exploded := (movies.filterMap (fun r => r.movieGenres)).flatMap
        (fun s => (pySplit ", " s).map (fun g => pyStrip g))
    .ok (pd_head n (value_counts exploded))

/-- Model of `pd.to_datetime(..., errors='coerce').dt.year` on the
dataset's `YYYY` / `YYYY-MM-DD` release-date formats: the leading four
digits, `none` on anything else.  No claim depends on the exact parseable
set — both sides of every claim use this same function. -/
def parse_release_year (c : Option String) : Option Int :=
  match c with
  | none => none
  | some s =>
    let cs := s.toList
    let ds := cs.take 4
    if ds.length = 4 ∧ ds.all (fun d => d.isDigit)
        ∧ (cs.drop 4 = [] ∨ (cs.drop 4).head? = some '-') then
      some ((ds.foldl (fun a d => a * 10 + (d.toNat - 48)) 0 : Nat) : Int)
    else none

/-- Does `pat` occur as a contiguous substring? -/
def listHasInfix (pat : List Char) : List Char → Bool
  | [] => pat.isEmpty
  | c :: cs => listStartsWith pat (c :: cs) || listHasInfix pat cs

/-- `Series.str.contains(pat, na=False, case=False)` for a literal
pattern: case-insensitive substring, `False` on `NaN`. -/
def str_contains_ci (cell : Option String) (pat : String) : Bool :=
  match cell with
  | none => false
  | some s => listHasInfix (pyLower pat).toList (pyLower s).toList

/-- The `(Year, Movie_genres)` pairs surviving
`pd.to_datetime(...).dt.year` + `dropna(subset=['Year'])` in `releases`
(`moviedata_final.py` lines 174-176). -/
def release_rows (movies : List MovieRow) : List (Int × Option String) :=
  movies.filterMap (fun r =>
    (parse_release_year r.movieReleaseDate).map (fun y => (y, r.movieGenres)))

/-- The optional genre filter of `releases` (lines 178-179): `if genre:`
is Python truthiness, so `None` and `""` both skip the filter. -/
def genre_rows (movies : List MovieRow) (genre : Option String) :
    List (Int × Option String) :=
  match genre with
  | none => release_rows movies
  | some g =>
    if g = "" then release_rows movies
    else (release_rows movies).filter (fun p => str_contains_ci p.2 g)

/-- `releases` (`moviedata_final.py` lines 169-181): parse release years,
drop unparsable dates, optionally filter by genre substring, group by
year (`groupby('Year').size()`, sorted keys). -/
def releases (movies : List MovieRow) (genre : Option String) : List (Int × Nat) :=
  (sortBy (fun a b => decide (a ≤ b)) ((genre_rows movies genre).map Prod.fst).dedup).map
    (fun y => (y, (genre_rows movies genre).countP (fun p => p.1 == y)))

/-- The per-movie row counts of
`character_df.groupby("Wikipedia_movie_ID").size()` (sorted distinct
ids, one count each). -/
def group_sizes (chars : List CharacterRow) : List Nat :=
  (sortBy (fun a b => decide (a ≤ b)) (chars.map (fun r => r.wikipediaMovieId)).dedup).map
    (fun i => chars.countP (fun r => r.wikipediaMovieId == i))

/-- `actor_count` (`moviedata_final.py` lines 183-203): empty table gives
an empty frame; otherwise group rows by movie id, take the group sizes,
and group the sizes into a `(Number of Actors, Movie Count)` table. -/
def actor_count (chars : List CharacterRow) : List (Nat × Nat) :=
  if chars.isEmpty then []
  else
    (sortBy (fun a b => decide (a ≤ b)) (group_sizes chars).dedup).map
      (fun k => (k, (group_sizes chars).count k))

/-- `actor_distributions` (`moviedata_final.py` lines 220-248).  The
method writes the re-normalized gender column back onto
`self.character_df` before filtering, so it is modelled state-passing: it
returns the updated character table together with the
`['Actor_Gender', 'Actor_height']` projection of the filtered rows.
There is no height-range validation anywhere in this version. -/
def actor_distributions (chars : List CharacterRow) (gender : String)
    (min_height max_height : ℚ) :
    List CharacterRow × List (Option String × Option ℚ) :=
  if chars.isEmpty then (chars, [])
  else
    let chars := chars.map (fun r => { r with actorGender := clean_gender r.actorGender })
    let filtered := chars.filter (fun r =>
      match r.actorHeight with
      | some h => decide (min_height ≤ h ∧ h ≤ max_height)
      | none => false)
    let filtered :=
      if pyLower gender ≠ "all" then
        filtered.filter (fun r =>
          match r.actorGender with
          | some s => pyLower s == pyLower gender
          | none => false)
      else filtered
    (chars, filtered.map (fun r => (r.actorGender, r.actorHeight)))

/-- `actor_distributions` from `moviedata.py` (lines 177-197): validates
the gender code and the height range before filtering.  The source's
argument order is `(gender, max_height, min_height)`. -/
def actor_distributions_py (chars : List CharacterRow) (gender : String)
    (max_height min_height : ℚ) : Except String (List CharacterRow) :=
  if pyLower gender ≠ "m" ∧ pyLower gender ≠ "f" then
    .error "Gender must be m or f."
  else if min_height > max_height then
    .error "min_height must be less than max_height."
  else
    .ok (chars.filter (fun r =>
      (match r.actorGender with
       | some s => pyLower s == pyLower gender
       | none => false)
      &&
      (match r.actorHeight with
       | some h => decide (min_height ≤ h ∧ h ≤ max_height)
       | none => false)))

/-! ## Extractor path model

POSIX paths: `osPathAbs` resolves a path against a working directory into
normalized absolute components (`os.path.abspath`), `osCommonPrefix` is
the character-wise `os.path.commonprefix`, and a tar member extracts at
`os.path.join(target, member)`. -/

def pathComponents (s : String) : List String := pySplit "/" s

def isAbsPath (s : String) : Bool := s.toList.head? == some '/'

def endsWithSlash (s : String) : Bool := s.toList.getLast? == some '/'

def osPathJoin (a b : String) : String :=
  if isAbsPath b then b
  else if a = "" then b
  else if endsWithSlash a then a ++ b
  else a ++ "/" ++ b

/-- `os.path.normpath` on absolute components: drop empty and `.`,
resolve `..` against the stack (above the root it vanishes). -/
def normAbs (comps : List String) : List String :=
  comps.foldl (fun acc c =>
    if c = "" ∨ c = "." then acc
    else if c = ".." then acc.dropLast
    else acc ++ [c]) []

def osPathAbs (cwd : List String) (p : String) : List String :=
  if isAbsPath p then normAbs (pathComponents p)
  else normAbs (cwd ++ pathComponents p)

def renderAbs (comps : List String) : String :=
  "/" ++ String.intercalate "/" comps

def commonPrefixChars : List Char → List Char → List Char
  | a :: as, b :: bs => if a = b then a :: commonPrefixChars as bs else []
  | _, _ => []

def osCommonPrefix (a b : String) : String :=
  ⟨commonPrefixChars a.toList b.toList⟩

/-- Where `extractall` writes the member named `member` of an archive
being extracted into `path`. -/
def tar_member_target (cwd : List String) (path member : String) : List String :=
  osPathAbs cwd (osPathJoin path member)

/-- The spec's safety notion: the member's resolved path stays within the
target directory. -/
def withinTarget (cwd : List String) (path : String) (p : List String) : Bool :=
  (osPathAbs cwd path).isPrefixOf p

/-- `safe_extract` inside `_extract_data` of `moviedata.py` (lines
48-55): every member's `os.path.commonprefix` check must pass before a
single `extractall`; the first failure raises and nothing is written. -/
def safe_extract (cwd : List String) (path : String) (members : List String) :
    Except String (List (List String)) :=
  if members.all (fun m =>
      osCommonPrefix (renderAbs (osPathAbs cwd path))
          (renderAbs (tar_member_target cwd path m))
        == renderAbs (osPathAbs cwd path)) then
    .ok (members.map (tar_member_target cwd path))
  else .error "Attempted Path Traversal in Tar File"

/-- `_extract_data` in `moviedata_final.py` (lines 50-63): a plain
`tar_ref.extractall(path=self.download_dir)` with no entry validation —
every member is written at its resolved path, wherever that is. -/
def extract_data_final (cwd : List String) (path : String) (members : List String) :
    List (List String) :=
  members.map (tar_member_target cwd path)

/-! ## Helper lemmas -/

theorem clean_gender_none : clean_gender none = none := by rfl

theorem clean_gender_idem (g : Option String) :
    clean_gender (clean_gender g) = clean_gender g := by
  cases g with
  | none => rw [clean_gender_none, clean_gender_none]
  | some s =>
    rcases h : gender_map (pyStrip (pyLower s)) with _ | v
    · have h1 : clean_gender (some s) = some s := by
        simp only [clean_gender, Option.getD_some, h]
      rw [h1, h1]
    · have h1 : clean_gender (some s) = some v := by
        simp only [clean_gender, Option.getD_some, h]
      have hv : v = "male" ∨ v = "female" := by
        unfold gender_map at h
        split_ifs at h with h1 h2
        · exact Or.inl (Option.some.inj h).symm
        · exact Or.inr (Option.some.inj h).symm
      rw [h1]
      rcases hv with rfl | rfl
      · rfl
      · rfl

theorem sum_map_add_nat {α : Type} (f g : α → Nat) (L : List α) :
    (L.map (fun x => f x + g x)).sum = (L.map f).sum + (L.map g).sum := by
  induction L with
  | nil => simp
  | cons b L ih => simp [ih]; omega

theorem sum_map_ite_eq_count {α : Type} [DecidableEq α] (a : α) (L : List α) :
    (L.map (fun x => if a == x then 1 else 0)).sum = L.count a := by
  induction L with
  | nil => simp
  | cons b L ih =>
    simp only [List.map_cons, List.sum_cons, ih, List.count_cons]
    by_cases h : a = b
    · subst h; simp; omega
    · have h1 : (a == b) = false := by simp [h]
      have h2 : (b == a) = false := by simp [Ne.symm h]
      simp [h1, h2]

theorem sum_map_count_cons {α : Type} [DecidableEq α] (a : α) (t L : List α) :
    (L.map (fun x => (a :: t).count x)).sum
      = (L.map (fun x => t.count x)).sum + L.count a := by
  have hc : (fun x => (a :: t).count x)
      = fun x => t.count x + if a == x then 1 else 0 := by
    funext x
    rw [List.count_cons]
  rw [hc, sum_map_add_nat, sum_map_ite_eq_count]

theorem sum_map_count_dedup {α : Type} [DecidableEq α] (l : List α) :
    (l.dedup.map (fun x => l.count x)).sum = l.length := by
  induction l with
  | nil => simp
  | cons a t ih =>
    by_cases h : a ∈ t
    · rw [List.dedup_cons_of_mem h, sum_map_count_cons, ih, List.count_dedup]
      simp [h]
    · rw [List.dedup_cons_of_not_mem h, List.map_cons, List.sum_cons,
        sum_map_count_cons, ih, List.count_dedup, List.count_cons]
      rw [List.count_eq_zero_of_not_mem h]
      simp [h]
      omega

/-! ## Concrete rows for witnesses and counterexamples -/

theorem insertSorted_perm {α : Type} (le : α → α → Bool) (a : α) (l : List α) :
    (insertSorted le a l).Perm (a :: l) := by
  induction l with
  | nil => exact List.Perm.refl _
  | cons b bs ih =>
    unfold insertSorted
    by_cases h : le b a = true
    · rw [if_pos h]
      exact (ih.cons b).trans (List.Perm.swap _ _ _)
    · rw [if_neg h]

theorem foldl_insertSorted_perm {α : Type} (le : α → α → Bool) :
    ∀ (l acc : List α),
      (l.foldl (fun acc a => insertSorted le a acc) acc).Perm (acc ++ l)
  | [], acc => by simp
  | a :: l, acc => by
    simp only [List.foldl_cons]
    refine (foldl_insertSorted_perm le l (insertSorted le a acc)).trans ?_
    refine (((insertSorted_perm le a acc).append_right l).trans ?_)
    exact List.perm_middle.symm

theorem sortBy_perm {α : Type} (le : α → α → Bool) (l : List α) :
    (sortBy le l).Perm l := by
  simpa using foldl_insertSorted_perm le l []

theorem mem_sortBy {α : Type} {le : α → α → Bool} {a : α} {l : List α} :
    a ∈ sortBy le l ↔ a ∈ l :=
  (sortBy_perm le l).mem_iff

/-- Did the call return (`true`) or raise (`false`)? -/
def exceptOk {α : Type} (e : Except String α) : Bool :=
  match e with
  | .ok _ => true
  | .error _ => false

/-- A character row with all the columns the claims never look at blank. -/
def mkChar (mid : Int) (g : Option String) (h : Option ℚ) : CharacterRow :=
  { wikipediaMovieId := mid, freebaseMovieId := none, movieReleaseDate := none,
    characterName := none, actorDateOfBirth := none, actorGender := g,
    actorHeight := h, actorEthnicity := none, actorName := none,
    actorAgeAtMovieRelease := none, freebaseCharacterActorMapId := none,
    freebaseCharacterId := none, freebaseActorId := none }

/-- A movie row with all the columns the claims never look at blank. -/
def mkMovie (mid : Int) (date genres : Option String) : MovieRow :=
  { wikipediaMovieId := mid, freebaseMovieId := none, movieName := none,
    movieReleaseDate := date, movieBoxOfficeRevenue := none, movieRuntime := none,
    movieLanguages := none, movieCountries := none, movieGenres := genres }

/-- A raw genre cell as stored in the dataset (a Python dict literal). -/
def gDictCell : String :=
  "\x7b\x27/m/01z4y\x27: \x27Comedy\x27\x7d"

def sample_movies : List MovieRow :=
  [mkMovie 1 (some "1999-05-01") (some "Drama, Comedy"),
   mkMovie 2 (some "1999") (some "Drama")]

def sample_chars : List CharacterRow :=
  [mkChar 1 (some "male") (some 180), mkChar 1 (some "female") (some 165)]

/-! ## Claims -/

/-- C1: the spec requires every archive entry's resolved path to stay
within the target directory, rejecting the whole extraction with a
security error before any write.  `moviedata.py`'s `safe_extract` does
exactly that, but the final pipeline's `_extract_data`
(`moviedata_final.py`) calls plain `extractall`: on an archive holding
the entry `../../evil` (target `downloads` under `/home/user`) it writes
`/home/evil`, a path outside the target, while `safe_extract` rejects the
same archive. -/
theorem C1_extractor_path_traversal :
    extract_data_final ["home", "user"] "downloads" ["../../evil"]
        = [["home", "evil"]]
    ∧ withinTarget ["home", "user"] "downloads" ["home", "evil"] = false
    ∧ safe_extract ["home", "user"] "downloads" ["../../evil"]
        = Except.error "Attempted Path Traversal in Tar File" := by
  refine ⟨by decide, by decide, by rfl⟩

/-- C3 counterexample: cleaning does NOT map an unrecognized gender code,
nor a missing value, to `"unknown"` — the chain's final
`.fillna(self.character_df['Actor_Gender'])` restores the original cell,
so `"xyz"` stays `"xyz"` and `NaN` stays `NaN`, while the spec's wording
demands `"unknown"` for both. -/
theorem C3_counterexample :
    clean_gender (some "xyz") = some "xyz"
    ∧ clean_gender none = none
    ∧ spec_gender_normalize (some "xyz") = some "unknown"
    ∧ clean_gender (some "xyz") ≠ some "unknown"
    ∧ clean_gender none ≠ some "unknown" := by
  refine ⟨by rfl, by rfl, by rfl, by decide, by decide⟩

/-- C3 amended: gender cleaning lowercases and trims only to decide the
mapping; `"m"` goes to `"male"` and `"f"` to `"female"`, and every other
cell — already-expanded values, unrecognized codes and missing values
alike — is left exactly as stored.  In particular `"M"`, `"m"` and
`" M "` all normalize to `"male"`. -/
theorem C3_gender_normalization_amended :
    (∀ g, clean_gender g = amended_gender_normalize g)
    ∧ clean_gender (some "M") = some "male"
    ∧ clean_gender (some "m") = some "male"
    ∧ clean_gender (some " M ") = some "male"
    ∧ clean_gender (some "male") = some "male"
    ∧ clean_gender (some "female") = some "female" := by
  refine ⟨?_, by rfl, by rfl, by rfl, by rfl, by rfl⟩
  intro g
  cases g with
  | none => rfl
  | some s =>
    by_cases h1 : pyStrip (pyLower s) = "m"
    · simp [clean_gender, amended_gender_normalize, gender_map, h1]
    · by_cases h2 : pyStrip (pyLower s) = "f"
      · simp [clean_gender, amended_gender_normalize, gender_map, h1, h2]
      · simp [clean_gender, amended_gender_normalize, gender_map, h1, h2]

/-- C6 counterexample: `movie_type` accepts `N = 0`, which is not a
positive integer, and returns an empty ok-result instead of failing with
a validation error. -/
theorem C6_counterexample :
    movie_type sample_movies (PyVal.int 0) = Except.ok [] := by rfl

/-- C6 amended: `movie_type` fails with a validation error exactly when
`N` is not an `int` (`isinstance(N, int)` is its only check); every
integer `N` — zero and negative values included — is accepted. -/
theorem C6_movie_type_rejects_exactly_non_int (movies : List MovieRow) (v : PyVal) :
    exceptOk (movie_type movies v) = false ↔ v = PyVal.nonInt := by
  cases v with
  | int n => simp [movie_type, exceptOk]
  | nonInt => simp [movie_type, exceptOk]

/-- C9 counterexample: a character row whose height cell could not be
resolved to a number is NOT still present after cleaning — `_clean_data`
runs `dropna(subset=['Actor_height'], inplace=True)` on the stored
table, so the base table loses the row globally. -/
theorem C9_counterexample :
    clean_character_table [mkChar 1 (some "M") none] = []
    ∧ [mkChar 1 (some "M") none] ≠ ([] : List CharacterRow) := by
  exact ⟨by rfl, by decide⟩

/-- C9 amended: cleaning drops rows with unresolvable height globally
from the stored character table: after `_clean_data` every stored row has
a numeric height. -/
theorem C9_height_rows_dropped_globally (c : List CharacterRow) :
    (clean_character_table c).all (fun r => r.actorHeight.isSome) = true := by
  rw [List.all_eq_true]
  intro r hr
  unfold clean_character_table at hr
  exact (List.mem_filter.mp hr).2

/-- C5: the spec requires `actorsByGenderAndHeight` with
`min_height > max_height` to fail with a validation error.  The earlier
`moviedata.py` variant does raise (second conjunct), but the final
pipeline's `actor_distributions` has no range validation at all: for
every gender and every inverted range it silently returns an empty
result instead of an error (first conjunct; its return type has no error
outcome because the Python body contains no `raise`). -/
theorem C5_min_gt_max_not_rejected (chars : List CharacterRow) (g : String)
    (lo hi : ℚ) (h : hi < lo) :
    (actor_distributions chars g lo hi).2 = []
    ∧ exceptOk (actor_distributions_py chars g hi lo) = false := by
  constructor
  · unfold actor_distributions
    by_cases he : chars.isEmpty = true
    · rw [if_pos he]
    · rw [if_neg he]
      have hfil : (chars.map
            (fun r => { r with actorGender := clean_gender r.actorGender })).filter
          (fun r => match r.actorHeight with
            | some hgt => decide (lo ≤ hgt ∧ hgt ≤ hi)
            | none => false) = [] := by
        rw [List.filter_eq_nil_iff]
        intro r _
        cases hh : r.actorHeight with
        | none => simp [hh]
        | some hgt =>
          simp only [hh, decide_eq_true_eq]
          intro h1
          linarith [h1.1, h1.2]
      show (List.map (fun r => ((r.actorGender, r.actorHeight) : Option String × Option ℚ))
          (if pyLower g ≠ "all" then
            ((chars.map (fun r => { r with actorGender := clean_gender r.actorGender })).filter
              (fun r => match r.actorHeight with
                | some hgt => decide (lo ≤ hgt ∧ hgt ≤ hi)
                | none => false)).filter
              (fun r => match r.actorGender with
                | some s => pyLower s == pyLower g
                | none => false)
          else
            (chars.map (fun r => { r with actorGender := clean_gender r.actorGender })).filter
              (fun r => match r.actorHeight with
                | some hgt => decide (lo ≤ hgt ∧ hgt ≤ hi)
                | none => false))) = []
      rw [hfil]
      simp
  · unfold actor_distributions_py
    by_cases hg : pyLower g ≠ "m" ∧ pyLower g ≠ "f"
    · rw [if_pos hg]; rfl
    · rw [if_neg hg, if_pos h]; rfl

/-- C5 witness: the concrete rejected call of the spec's testable
property, `actorsByGenderAndHeight(gender, 300, 100)`: the final code
returns an empty frame (no error) and the `moviedata.py` variant
raises. -/
theorem C5_min_gt_max_not_rejected_witness :
    (actor_distributions sample_chars "all" 300 100).2 = []
    ∧ exceptOk (actor_distributions_py sample_chars "all" 100 300) = false :=
  C5_min_gt_max_not_rejected sample_chars "all" 300 100 (by norm_num)

/-- C10: `actor_distributions` uses its gender argument only through
`gender.lower()` — both in the `"all"` sentinel test and in the row
comparison — so the result (state and projection alike) is invariant
under lowercasing the argument; in particular `"All"` and `"ALL"` act as
the sentinel `"all"`, and `"Male"` selects exactly what `"male"`
selects. -/
theorem C10_actor_distributions_gender_case_insensitive :
    (∀ (chars : List CharacterRow) (g : String) (lo hi : ℚ),
        actor_distributions chars g lo hi
          = actor_distributions chars (pyLower g) lo hi)
    ∧ (∀ (chars : List CharacterRow) (lo hi : ℚ),
        actor_distributions chars "All" lo hi = actor_distributions chars "all" lo hi
        ∧ actor_distributions chars "ALL" lo hi = actor_distributions chars "all" lo hi
        ∧ actor_distributions chars "Male" lo hi = actor_distributions chars "male" lo hi) := by
  have main : ∀ (chars : List CharacterRow) (g : String) (lo hi : ℚ),
      actor_distributions chars g lo hi
        = actor_distributions chars (pyLower g) lo hi := by
    intro chars g lo hi
    unfold actor_distributions
    simp only [pyLower_idem]
  refine ⟨main, fun chars lo hi => ⟨?_, ?_, ?_⟩⟩
  · have h := main chars "All" lo hi
    rwa [show pyLower "All" = "all" from rfl] at h
  · have h := main chars "ALL" lo hi
    rwa [show pyLower "ALL" = "all" from rfl] at h
  · have h := main chars "Male" lo hi
    rwa [show pyLower "Male" = "male" from rfl] at h

/-- C2: after cleaning, no query call changes the stored tables.  In the
embedding `movie_type`, `releases`, `actor_count` and `ages` are plain
functions of the tables (their Python bodies only read `self`, working on
copies), so the single state write in the whole query layer is
`actor_distributions`' re-assignment of the normalized gender column;
on a cleaned character table that re-assignment is the identity, for
every argument. -/
theorem C2_queries_preserve_cleaned_tables (c : List CharacterRow)
    (g : String) (lo hi : ℚ) :
    (actor_distributions (clean_character_table c) g lo hi).1
      = clean_character_table c := by
  unfold actor_distributions
  by_cases he : (clean_character_table c).isEmpty = true
  · rw [if_pos he]
  · rw [if_neg he]
    show List.map (fun r => { r with actorGender := clean_gender r.actorGender })
        (clean_character_table c) = clean_character_table c
    have hid : ∀ r ∈ clean_character_table c,
        ({ r with actorGender := clean_gender r.actorGender } : CharacterRow) = r := by
      intro r hr
      unfold clean_character_table at hr
      rcases List.mem_filter.mp hr with ⟨hm, _⟩
      rcases List.mem_map.mp hm with ⟨r₀, _, rfl⟩
      simp [clean_character_row, clean_gender_idem]
    exact (List.map_congr_left hid).trans (List.map_id _)

theorem clean_height_idem_iff (x : ℚ) :
    clean_height (clean_height (some x)) = clean_height (some x)
      ↔ (x = 0 ∨ 1 / 10 ≤ x) := by
  simp only [clean_height, pd_to_numeric, Option.map_some', Option.some.injEq]
  split_ifs with h1 h2
  · constructor
    · intro he
      left
      linarith
    · rintro (rfl | hx)
      · norm_num
      · exfalso
        linarith
  · constructor
    · intro _
      right
      push_neg at h2
      linarith
    · intro _
      rfl
  · constructor
    · intro _
      right
      push_neg at h1
      linarith
    · intro _
      rfl

/-- C4 counterexample: cleaning is not idempotent.  A raw genre cell
(a serialized code-to-name map) cleans to `"Comedy"` once, but a second
application of the cleaning step feeds `"Comedy"` back into
`ast.literal_eval`, which fails, and the recovery path replaces the cell
with `''`. -/
theorem C4_counterexample :
    clean_movie_table (clean_movie_table [mkMovie 1 none (some gDictCell)])
      ≠ clean_movie_table [mkMovie 1 none (some gDictCell)]
    ∧ clean_movie_table [mkMovie 1 none (some gDictCell)]
        = [mkMovie 1 none (some "Comedy")]
    ∧ clean_movie_table (clean_movie_table [mkMovie 1 none (some gDictCell)])
        = [mkMovie 1 none (some "")] := by
  refine ⟨by decide, by rfl, by rfl⟩

/-- C4 amended: the gender normalization is idempotent, and the height
normalization is idempotent exactly on cells that are `0` or at least
`1/10` (a smaller height is re-multiplied by `100` on every
application); but the category-map normalization destroys its own
output: whenever a cell parses as a map whose comma-joined value list is
non-empty and no longer parses as a map (as for every real genre list),
a second application replaces the cleaned value with `''`.  The cleaning
step as a whole is therefore not idempotent; the pipeline runs it
exactly once. -/
theorem C4_cleaning_not_idempotent :
    (∀ g, clean_gender (clean_gender g) = clean_gender g)
    ∧ (∀ x : ℚ, clean_height (clean_height (some x)) = clean_height (some x)
        ↔ (x = 0 ∨ 1 / 10 ≤ x))
    ∧ (∀ (s : String) (kvs : List (String × String)),
        literalEvalDict s = some kvs →
        String.intercalate ", " (kvs.map Prod.snd) ≠ "" →
        literalEvalDict (String.intercalate ", " (kvs.map Prod.snd)) = none →
        safe_eval (safe_eval (some s)) ≠ safe_eval (some s)) := by
  refine ⟨clean_gender_idem, clean_height_idem_iff, ?_⟩
  intro s kvs hp hne hrep
  simp only [safe_eval, hp, hrep]
  intro hcontra
  exact hne (Option.some.inj hcontra).symm

/-- C4 witness: the non-idempotence branch applied at the concrete genre
cell, every hypothesis discharged by evaluation. -/
theorem C4_cleaning_not_idempotent_witness :
    safe_eval (safe_eval (some gDictCell)) ≠ safe_eval (some gDictCell) :=
  C4_cleaning_not_idempotent.2.2 gDictCell [("/m/01z4y", "Comedy")]
    (by rfl) (by decide) (by rfl)

/-- C7: the `Movie Count` entries of `actor_count`'s histogram sum to the
number of distinct movie identifiers occurring in the character table
(each distinct id contributes one group, and the second `groupby`
partitions the groups by size), and the empty table yields an empty
result rather than an error. -/
theorem C7_actor_count_histogram_total (chars : List CharacterRow) :
    ((actor_count chars).map Prod.snd).sum
      = ((chars.map (fun r => r.wikipediaMovieId)).dedup).length
    ∧ actor_count ([] : List CharacterRow) = [] := by
  refine ⟨?_, rfl⟩
  by_cases he : chars.isEmpty = true
  · have h := List.isEmpty_iff.mp he
    subst h
    rfl
  · unfold actor_count
    rw [if_neg he, List.map_map]
    have hcomp : (Prod.snd ∘ fun k => ((k, (group_sizes chars).count k) : Nat × Nat))
        = fun k => (group_sizes chars).count k := rfl
    rw [hcomp]
    have hperm := (sortBy_perm (fun a b => decide (a ≤ b)) (group_sizes chars).dedup).map
        (fun k => (group_sizes chars).count k)
    rw [hperm.sum_eq, sum_map_count_dedup]
    unfold group_sizes
    rw [List.length_map]
    exact (sortBy_perm _ _).length_eq

theorem mem_releases_iff {movies : List MovieRow} {genre : Option String}
    {y : Int} {n : Nat} :
    (y, n) ∈ releases movies genre
      ↔ (y ∈ (genre_rows movies genre).map Prod.fst
          ∧ n = (genre_rows movies genre).countP (fun p => p.1 == y)) := by
  unfold releases
  constructor
  · intro h
    rcases List.mem_map.mp h with ⟨y', hy', heq⟩
    have h1 : y' = y := congrArg Prod.fst heq
    subst h1
    refine ⟨List.mem_dedup.mp (mem_sortBy.mp hy'), ?_⟩
    exact (congrArg Prod.snd heq).symm
  · rintro ⟨hy, rfl⟩
    exact List.mem_map.mpr ⟨y, mem_sortBy.mpr (List.mem_dedup.mpr hy), rfl⟩

/-- C8: `releases("Comedy")` is a per-year subset of `releases(None)` —
every year of the filtered result appears in the unfiltered result with
a count at least as large — and a year appears in the filtered result
exactly when some movie with a parseable release date whose genre string
contains `"Comedy"` (case-insensitively) released that year. -/
theorem C8_releases_comedy_subset (movies : List MovieRow) (y : Int) :
    (∀ n : Nat, (y, n) ∈ releases movies (some "Comedy") →
        ∃ m : Nat, (y, m) ∈ releases movies none ∧ n ≤ m)
    ∧ ((∃ k : Nat, (y, k) ∈ releases movies (some "Comedy"))
        ↔ ∃ r ∈ movies, parse_release_year r.movieReleaseDate = some y
            ∧ str_contains_ci r.movieGenres "Comedy" = true) := by
  have hFC : genre_rows movies (some "Comedy")
      = (release_rows movies).filter (fun p => str_contains_ci p.2 "Comedy") := by
    show (if ("Comedy" : String) = "" then release_rows movies
        else (release_rows movies).filter (fun p => str_contains_ci p.2 "Comedy"))
      = (release_rows movies).filter (fun p => str_contains_ci p.2 "Comedy")
    rw [if_neg (by decide)]
  have hN : genre_rows movies none = release_rows movies := rfl
  constructor
  · intro n hn
    rcases mem_releases_iff.mp hn with ⟨hy, rfl⟩
    refine ⟨(genre_rows movies none).countP (fun p => p.1 == y),
      mem_releases_iff.mpr ⟨?_, rfl⟩, ?_⟩
    · rcases List.mem_map.mp hy with ⟨p, hpF, hp1⟩
      rw [hFC] at hpF
      exact List.mem_map.mpr ⟨p, (List.mem_filter.mp hpF).1, hp1⟩
    · rw [hFC, hN, List.countP_filter]
      refine List.countP_mono_left (fun a _ h => ?_)
      simp only [Bool.and_eq_true] at h
      exact h.1
  · constructor
    · rintro ⟨k, hk⟩
      rcases mem_releases_iff.mp hk with ⟨hy, _⟩
      rcases List.mem_map.mp hy with ⟨p, hpF, hp1⟩
      rw [hFC] at hpF
      rcases List.mem_filter.mp hpF with ⟨hpR, hq⟩
      rcases List.mem_filterMap.mp hpR with ⟨r, hr, hfr⟩
      rcases Option.map_eq_some'.mp hfr with ⟨a, hoa, hfa⟩
      refine ⟨r, hr, ?_, ?_⟩
      · rw [hoa]
        have ha : a = y := by
          rw [← hp1, ← hfa]
        rw [ha]
      · have hp2 : p.2 = r.movieGenres := by
          rw [← hfa]
        rw [← hp2]
        exact hq
    · rintro ⟨r, hr, hparse, hcont⟩
      have hpR : ((y, r.movieGenres) : Int × Option String) ∈ release_rows movies := by
        apply List.mem_filterMap.mpr
        exact ⟨r, hr, by rw [hparse]; rfl⟩
      have hpF : ((y, r.movieGenres) : Int × Option String)
          ∈ genre_rows movies (some "Comedy") := by
        rw [hFC]
        exact List.mem_filter.mpr ⟨hpR, hcont⟩
      exact ⟨_, mem_releases_iff.mpr ⟨List.mem_map.mpr ⟨_, hpF, rfl⟩, rfl⟩⟩

/-- C8 witness: on the concrete two-movie table, the year 1999 appears in
`releases("Comedy")` with count 1, and the subset direction produces its
year entry in `releases(None)`. -/
theorem C8_releases_comedy_subset_witness :
    ∃ m : Nat, ((1999 : Int), m) ∈ releases sample_movies none ∧ 1 ≤ m :=
  (C8_releases_comedy_subset sample_movies 1999).1 1 (by decide)

end MovieRepo
